import Mathlib

/-!
Verification of the HTTP-over-gRPC tunnel, error/status mapping, server lifecycle
and response-logging middleware of the weaveworks/common repository, as a shallow
embedding in Lean 4.

Byte strings (`[]byte` and Go `string` payloads) are modelled as `List Nat`
(one entry per byte); machine integers (`int32`, `int`) are modelled as `Int`
with explicit wrapping where a conversion occurs in the source.
-/

/-- Bytes of an ASCII string, used to write concrete byte-string constants. -/
def strBytes (s : String) : List Nat := s.data.map Char.toNat

/-- Header as in the tunnel wire format (`types.Header` / `httpgrpc.Header`):
a key with an ordered list of values. -/
structure Header where
  key : String
  values : List String
deriving DecidableEq

/-- HTTPResponse of the tunnel wire format: status code (`int32`), ordered
header multimap, body bytes. -/
structure HTTPResponse where
  code : Int
  headers : List Header
  body : List Nat
deriving DecidableEq

/-- A structured detail attached to a gRPC status (`*any.Any`): either an Any
that unmarshals to an `HTTPResponse`, or one that does not. -/
inductive Detail where
  | httpResponse (resp : HTTPResponse)
  | otherDetail (tag : String)
deriving DecidableEq

/-- The proto form of a gRPC status (`spb.Status`): code, message bytes, details. -/
structure GrpcStatus where
  code : Int
  message : List Nat
  details : List Detail
deriving DecidableEq

/-- Go `error` values relevant to this code: gRPC status errors (values
implementing `GRPCStatus()`), the `context.Canceled` sentinel, wrapped errors
(`fmt.Errorf` with `%w`; `msg` is the full `Error()` text), and plain errors. -/
inductive GoError where
  | statusErr (s : GrpcStatus)
  | canceledErr
  | wrappedErr (msg : List Nat) (inner : GoError)
  | simpleErr (msg : List Nat)
deriving DecidableEq

/-- errors.Is(err, context.Canceled): walks the `Unwrap` chain looking for the
`context.Canceled` sentinel. Status and plain errors wrap nothing. -/
def errIsCanceled : GoError → Bool
  | .canceledErr => true
  | .wrappedErr _ inner => errIsCanceled inner
  | _ => false

/-- String of a gRPC code (`codes.Code.String()`): a name for the 17 defined
codes, otherwise `Code(n)`. -/
def codeString (c : Int) : String :=
  if c = 0 then "OK"
  else if c = 1 then "Canceled"
  else if c = 2 then "Unknown"
  else if c = 3 then "InvalidArgument"
  else if c = 4 then "DeadlineExceeded"
  else if c = 5 then "NotFound"
  else if c = 6 then "AlreadyExists"
  else if c = 7 then "PermissionDenied"
  else if c = 8 then "ResourceExhausted"
  else if c = 9 then "FailedPrecondition"
  else if c = 10 then "Aborted"
  else if c = 11 then "OutOfRange"
  else if c = 12 then "Unimplemented"
  else if c = 13 then "Internal"
  else if c = 14 then "Unavailable"
  else if c = 15 then "DataLoss"
  else if c = 16 then "Unauthenticated"
  else "Code(" ++ toString c ++ ")"

/-- Error() text of a Go error, as bytes. A status error renders as
`rpc error: code = <code> desc = <message>`; `context.Canceled` renders as
`context canceled`; a wrapped error carries its full text. -/
def errText : GoError → List Nat
  | .statusErr s => strBytes ("rpc error: code = " ++ codeString s.code ++ " desc = ") ++ s.message
  | .canceledErr => strBytes "context canceled"
  | .wrappedErr msg _ => msg
  | .simpleErr msg => msg

namespace types

/-- ErrorFromHTTPResponse (package `types`, src/http/client/client.go:191):
wraps the response as the single structured detail of a gRPC status error whose
code mirrors the HTTP status and whose message is the body text.
`ptypes.MarshalAny` is modelled as always succeeding (it cannot fail on a
well-formed `HTTPResponse` message); `status.ErrorProto` returns a nil error
when the code is `codes.OK` (0), modelled as `none`. -/
def ErrorFromHTTPResponse (resp : HTTPResponse) : Option GoError :=
  if resp.code = 0 then none
  else some (.statusErr { code := resp.code, message := resp.body, details := [.httpResponse resp] })

/-- status.FromError (grpc v1.26.0): ok exactly when the non-nil error value
implements `GRPCStatus()` (a direct type assertion, no unwrapping). -/
def statusFromError : GoError → Option GrpcStatus
  | .statusErr s => some s
  | _ => none

/-- HTTPResponseFromError (package `types`, src/http/client/client.go:205):
recovers the response only when the error is a status error carrying exactly
one detail that unmarshals to an `HTTPResponse`; `none` models `(nil, false)`. -/
def HTTPResponseFromError (err : GoError) : Option HTTPResponse :=
  match statusFromError err with
  | none => none
  | some s =>
    match s.details with
    | [d] =>
      match d with
      | .httpResponse resp => some resp
      | .otherDetail _ => none
    | _ => none

end types

namespace httpgrpc

/-- Go conversion `int32(n)` of a non-negative `int`, wrapping modulo 2^32. -/
def toInt32 (n : Nat) : Int := (((n + 2147483648) % 4294967296 : Nat) : Int) - 2147483648

/-- State of the in-memory `httptest` response recorder after the wrapped
handler ran inside `Server.Handle` (src/httpgrpc/httpgrpc.go:47):
status code (the recorder rejects codes outside 100..999; the default when the
handler never calls WriteHeader is 200), headers and buffered body. -/
structure Recorded where
  code : Nat
  headers : List Header
  body : List Nat
deriving DecidableEq

/-- Server.Handle (src/httpgrpc/httpgrpc.go:39), from the point where the
in-process request materialized and the wrapped handler finished with the given
recorder state: encodes the recorded status/headers/body and, when
`recorder.Code/100 == 5`, returns a nil response with the status error built by
`types.ErrorFromHTTPResponse`; otherwise the encoded response with a nil error. -/
def Handle (rec : Recorded) : Option HTTPResponse × Option GoError :=
  let resp : HTTPResponse := { code := toInt32 rec.code, headers := rec.headers, body := rec.body }
  if rec.code / 100 = 5 then
    (none, types.ErrorFromHTTPResponse resp)
  else
    (some resp, none)

/-- Outbound HTTP response written by the tunnel client adapter: either an
explicit (headers, code, body) triple written via `toHeader`/`WriteHeader`/`Write`,
or `http.Error(w, message, code)` (the stdlib writes the message followed by a
newline, with plain-text headers). -/
inductive Outbound where
  | explicit (headers : List Header) (code : Int) (body : List Nat)
  | genericError (code : Int) (message : List Nat)
deriving DecidableEq

/-- Client.ServeHTTP (src/httpgrpc/httpgrpc.go:130), from the point where the
remote `Handle` call returned: on success the response is written verbatim; on
error the client tries `types.HTTPResponseFromError` and writes the recovered
response verbatim, falling back to `http.Error(w, err.Error(), 500)`. -/
def ServeHTTP (handleResult : Except GoError HTTPResponse) : Outbound :=
  match handleResult with
  | .ok resp => .explicit resp.headers resp.code resp.body
  | .error err =>
    match types.HTTPResponseFromError err with
    | some resp => .explicit resp.headers resp.code resp.body
    | none => .genericError 500 (errText err)

/-- Modelled from the spec: the non-standard status for a client-closed request
used by the `httpgrpc`-package error mapping, whose implementation is not under
src (only its test, src/httpgrpc/httpgrpc_test.go, is). 499 is the fixed
non-standard "client closed request" code. -/
def StatusClientClosedRequest : Int := 499

/-- Modelled from the spec: the `httpgrpc`-package `HTTPResponseFromError`,
whose implementation is not under src (only its test,
src/httpgrpc/httpgrpc_test.go:11, is). Per the spec, "A canonical mapping
translates any error wrapping context cancellation into a fixed non-standard
status representing client closed request, with the body set to the error's
text"; otherwise it is the detail-recovering inverse of `ErrorFromHTTPResponse`
(returns the response only when the error carries exactly one detail of the
expected shape). -/
def HTTPResponseFromError (err : GoError) : Option HTTPResponse :=
  if errIsCanceled err then
    some { code := StatusClientClosedRequest, headers := [], body := errText err }
  else
    types.HTTPResponseFromError err

end httpgrpc

namespace neturl

/-- Splits a char list at the first occurrence of `sep` (Go net/url `split`):
`(s, [])` when `sep` is absent; otherwise the part before, and the part after
with the separator dropped (`cutc = true`) or kept (`cutc = false`). -/
def splitFirst (s : List Char) (sep : Char) (cutc : Bool) : List Char × List Char :=
  let pre := s.takeWhile (fun c => c ≠ sep)
  let rest := s.dropWhile (fun c => c ≠ sep)
  match rest with
  | [] => (s, [])
  | _ :: tail => (pre, if cutc then tail else rest)

/-- Splits at the last occurrence of `sep`, dropping it; `none` when absent. -/
def lastSplit (s : List Char) (sep : Char) : Option (List Char × List Char) :=
  if s.contains sep then
    let r := splitFirst s.reverse sep true
    some (r.2.reverse, r.1.reverse)
  else none

/-- Whether the list starts with the given char. -/
def startsWithChar (l : List Char) (c : Char) : Bool :=
  match l with
  | x :: _ => x == c
  | [] => false

/-- Whether the list starts with the two given chars. -/
def startsWith2 (l : List Char) (a b : Char) : Bool :=
  match l with
  | x :: y :: _ => x == a && y == b
  | _ => false

/-- Whether the list starts with the three given chars. -/
def startsWith3 (l : List Char) (a b c : Char) : Bool :=
  match l with
  | x :: y :: z :: _ => x == a && y == b && z == c
  | _ => false

/-- Loop of Go net/url `getscheme`: `raw` is the whole input (returned whole
when no scheme is found), `first` tracks whether we are at index 0. Letters
continue a scheme; digits and `+ - .` continue it except at index 0; a colon
ends it (error at index 0); any other char means there is no scheme. -/
def getschemeGo (raw : List Char) : List Char → List Char → Bool → Except String (List Char × List Char)
  | [], _, _ => .ok ([], raw)
  | c :: rest, acc, first =>
    if ('a' ≤ c ∧ c ≤ 'z') ∨ ('A' ≤ c ∧ c ≤ 'Z') then
      getschemeGo raw rest (acc ++ [c]) false
    else if ('0' ≤ c ∧ c ≤ '9') ∨ c = '+' ∨ c = '-' ∨ c = '.' then
      if first then .ok ([], raw) else getschemeGo raw rest (acc ++ [c]) false
    else if c = ':' then
      if first then .error "missing protocol scheme" else .ok (acc, rest)
    else .ok ([], raw)

/-- Go net/url `getscheme`: splits a leading `scheme:` off a raw URL. -/
def getscheme (raw : List Char) : Except String (List Char × List Char) :=
  getschemeGo raw raw [] true

/-- Whether the first colon of the list comes before any slash (Go's check that
the first path segment of a rootless relative URL contains no colon). -/
def colonBeforeSlash : List Char → Bool
  | [] => false
  | c :: rest => if c = '/' then false else if c = ':' then true else colonBeforeSlash rest

/-- Go net/url `validOptionalPort`: empty, or a colon followed by digits. -/
def validOptionalPort : List Char → Bool
  | [] => true
  | c :: rest => c == ':' && rest.all Char.isDigit

/-- Go net/url `parseHost`, restricted to hosts without percent-escapes or an
IPv6 zone: a bracketed host needs a closing bracket followed by a valid
optional port; otherwise anything after the last colon must be a valid port. -/
def parseHost (host : List Char) : Except String (List Char) :=
  if startsWithChar host '[' then
    match lastSplit host ']' with
    | none => .error "missing close bracket in host"
    | some (_, after) =>
      if validOptionalPort after then .ok host
      else .error "invalid port after host"
  else
    match lastSplit host ':' with
    | none => .ok host
    | some (_, after) =>
      if validOptionalPort (':' :: after) then .ok host
      else .error "invalid port after host"

/-- Go net/url `parseAuthority`, with the userinfo character validation omitted
(no input of interest carries userinfo): the host is what follows the last `@`. -/
def parseAuthority (authority : List Char) : Except String (List Char) :=
  match lastSplit authority '@' with
  | none => parseHost authority
  | some (_, hostpart) => parseHost hostpart

/-- Result of Go net/url parsing: scheme, the rootless remainder (`URL.Opaque`,
named `opq` here), host, and path. Query and fragment are dropped. -/
structure URL where
  scheme : List Char
  opq : List Char
  host : List Char
  path : List Char
deriving DecidableEq

/-- Go `url.Parse` (net/url, Go 1.13, `viaRequest = false`), restricted to
inputs without control bytes, `*`, or percent-escapes: strips fragment and
query, extracts and lowercases the scheme, treats a rootless remainder with a
scheme as opaque, rejects a rootless scheme-less remainder whose first segment
contains a colon, and parses a `//`-led authority into the host. -/
def urlParse (raw : List Char) : Except String URL :=
  let u := (splitFirst raw '#' true).1
  match getscheme u with
  | .error e => .error e
  | .ok (scheme0, rest0) =>
    let scheme := scheme0.map Char.toLower
    let rest := (splitFirst rest0 '?' true).1
    if !(startsWithChar rest '/') then
      if !scheme.isEmpty then .ok ⟨scheme, rest, [], []⟩
      else if colonBeforeSlash rest then .error "first path segment in URL cannot contain colon"
      else .ok ⟨scheme, [], [], rest⟩
    else if startsWith2 rest '/' '/' && (!scheme.isEmpty || !(startsWith3 rest '/' '/' '/')) then
      let ar := splitFirst (rest.drop 2) '/' false
      match parseAuthority ar.1 with
      | .error e => .error e
      | .ok host => .ok ⟨scheme, [], host, ar.2⟩
    else .ok ⟨scheme, [], [], rest⟩

/-- Go `net.SplitHostPort`: splits `host:port` at the last colon, handling the
bracketed `[host]:port` form and rejecting stray colons and brackets. -/
def netSplitHostPort (hostport : List Char) : Except String (List Char × List Char) :=
  match lastSplit hostport ':' with
  | none => .error "missing port in address"
  | some (before, after) =>
    if startsWithChar hostport '[' then
      if !((hostport.drop 1).contains ']') then .error "missing close bracket in address"
      else
        let inner := splitFirst (hostport.drop 1) ']' true
        match inner.2 with
        | [] => .error "missing port in address"
        | c :: afterColon =>
          if c == ':' then
            if afterColon.contains ':' then .error "too many colons in address"
            else if inner.1.contains '[' then .error "unexpected open bracket in address"
            else if afterColon.contains ']' then .error "unexpected close bracket in address"
            else .ok (inner.1, afterColon)
          else .error "missing port in address"
    else
      if before.contains ':' then .error "too many colons in address"
      else if hostport.contains '[' then .error "unexpected open bracket in address"
      else if hostport.contains ']' then .error "unexpected close bracket in address"
      else .ok (before, after)

/-- Go `strings.SplitN(s, sep, 2)` for a one-char separator. -/
def splitN2 (s : List Char) (sep : Char) : List (List Char) :=
  if s.contains sep then
    let r := splitFirst s sep true
    [r.1, r.2]
  else [s]

end neturl

namespace httpgrpc

/-- Dial options produced by ParseURL: the kuberesolver balancer option,
carrying the namespace the resolver watches
(`kuberesolver.NewWithNamespace(namespace).DialOption()`). -/
inductive DialOption where
  | kuberesolverBalancer (ns : List Char)
deriving DecidableEq

/-- ParseURL (src/httpgrpc/httpgrpc.go:72): `direct` scheme returns the host
unchanged with no dial options; `kubernetes` or empty scheme splits
`service.namespace:port`, defaulting the namespace to `default`, and returns a
`kubernetes://service:port` target plus the kuberesolver balancer option; any
other scheme is an error. -/
def ParseURL (unparsed : String) : Except String (String × List DialOption) :=
  match neturl.urlParse unparsed.data with
  | .error e => .error e
  | .ok parsed =>
    if parsed.scheme = "direct".data then .ok (String.mk parsed.host, [])
    else if parsed.scheme = "kubernetes".data ∨ parsed.scheme = [] then
      match neturl.netSplitHostPort parsed.host with
      | .error e => .error e
      | .ok (host, port) =>
        let parts := neturl.splitN2 host '.'
        let service := parts.headD []
        let ns := if parts.length = 2 then parts.getLastD [] else "default".data
        .ok (String.mk ("kubernetes://".data ++ service ++ ':' :: port), [.kuberesolverBalancer ns])
    else .error ("unrecognised scheme: " ++ String.mk parsed.scheme)

end httpgrpc

namespace httpgrpcserver

/-- Capacity ceiling for pooled body buffers
(src/unnamed/part_002, `maxInPoolBufferCapacity`). -/
def maxInPoolBufferCapacity : Nat := 1024 * 1024

/-- Go slice of bytes: its elements and its capacity (`cap ≥ data.length` in Go;
the invariant is not needed for the properties below). -/
structure GoSlice where
  data : List Nat
  cap : Nat
deriving DecidableEq

/-- Nil slice (`resp.Body = nil`). -/
def GoSlice.nilSlice : GoSlice := ⟨[], 0⟩

/-- Go reslicing `b[:0]`: length zero, capacity preserved. -/
def GoSlice.truncate (b : GoSlice) : GoSlice := ⟨[], b.cap⟩

/-- A `*httpgrpc.HTTPResponse` as seen by the stats interceptor: only the body
buffer takes part in pooling. -/
structure PoolHTTPResponse where
  body : GoSlice
deriving DecidableEq

/-- Payload of an outgoing-message stats event: either a tunneled HTTP response
(`*httpgrpc.HTTPResponse`, matched by type assertion) or anything else. -/
inductive Payload where
  | httpResponse (resp : PoolHTTPResponse)
  | otherPayload
deriving DecidableEq

/-- Transport statistics events (`stats.RPCStats`): an `*stats.OutPayload`
(message fully written to the wire) or any other notification. -/
inductive RPCStats where
  | outPayload (payload : Payload)
  | otherStats
deriving DecidableEq

/-- Observable effect of one `statsHandler.HandleRPC` call: the event passed to
the wrapped handler (if one is configured), the buffer handed to `putFn`
(if any), and the event's payload after the body-clearing mutation. -/
structure HandleRPCEffect where
  nextArg : Option RPCStats
  putArg : Option GoSlice
  finalStats : RPCStats
deriving DecidableEq

/-- statsHandler.HandleRPC (src/unnamed/part_002:34): first forwards the event
unchanged to the wrapped handler, then — only for an out-payload whose payload
is a tunneled HTTP response — hands the body buffer, truncated to length zero,
to the pool and clears the body reference, unless the capacity exceeds the
ceiling, in which case the buffer is dropped. -/
def HandleRPC (hasNext : Bool) (st : RPCStats) : HandleRPCEffect :=
  let nextArg : Option RPCStats := if hasNext then some st else none
  match st with
  | .otherStats => ⟨nextArg, none, st⟩
  | .outPayload p =>
    match p with
    | .otherPayload => ⟨nextArg, none, st⟩
    | .httpResponse resp =>
      if resp.body.cap > maxInPoolBufferCapacity then ⟨nextArg, none, st⟩
      else ⟨nextArg, some resp.body.truncate, .outPayload (.httpResponse ⟨GoSlice.nilSlice⟩)⟩

end httpgrpcserver

namespace server

/-- Server configuration, restricted to the fields the construction-time
decisions of `New` read (src/server/server.go:63): the two listen ports
(`-1` disables a protocol), the HTTP-over-gRPC co-routing flag, and whether
source-IP logging (whose regex setup can fail) is enabled. -/
structure Config where
  httpListenPort : Int
  grpcListenPort : Int
  routeHTTPToGRPC : Bool
  logSourceIPs : Bool
deriving DecidableEq

/-- GRPCEnabled (src/server/server.go:181). -/
def Config.GRPCEnabled (cfg : Config) : Bool := cfg.grpcListenPort != -1

/-- HTTPEnabled (src/server/server.go:183). -/
def Config.HTTPEnabled (cfg : Config) : Bool := cfg.httpListenPort != -1

/-- A bound listener; `addr` models the non-nil `net.Addr` it reports. -/
structure Listener where
  addr : String
deriving DecidableEq

/-- Environment for `New`: the outcomes of the effectful or external steps it
performs, in source order — `stringToCipherSuites`, `stringToTLSVersion`,
`net.Listen` plus `web.ConfigToTLSConfig` for each protocol, and
`middleware.NewSourceIPs` (consulted only when source-IP logging is on). The
counting and connection-limit listener decorators preserve the address. -/
structure Env where
  cipherSuites : Except String Unit
  minVersion : Except String Unit
  httpListen : Except String Listener
  httpTLSConfig : Except String Unit
  sourceIPs : Except String Unit
  grpcListen : Except String Listener
  grpcTLSConfig : Except String Unit

/-- Whether every step of the environment succeeds. -/
def Env.allOk (env : Env) : Prop :=
  (∃ u, env.cipherSuites = .ok u) ∧ (∃ u, env.minVersion = .ok u) ∧
  (∃ l, env.httpListen = .ok l) ∧ (∃ u, env.httpTLSConfig = .ok u) ∧
  (∃ u, env.sourceIPs = .ok u) ∧ (∃ l, env.grpcListen = .ok l) ∧
  (∃ u, env.grpcTLSConfig = .ok u)

/-- The server aggregate, restricted to what the listen-address accessors read:
the listeners stored by the setup functions (`nil` when a protocol is off). -/
structure Server where
  httpListener : Option Listener
  grpcListener : Option Listener
deriving DecidableEq

/-- setupHTTPServer (src/server/server.go:464): binds the HTTP listener
(failing early if the port is in use), resolves TLS material, and sets up
source-IP extraction when requested; the bound listener is stored. -/
def setupHTTPServer (cfg : Config) (env : Env) : Except String Listener :=
  match env.httpListen with
  | .error e => .error e
  | .ok l =>
    match env.httpTLSConfig with
    | .error e => .error e
    | .ok _ =>
      if cfg.logSourceIPs then
        match env.sourceIPs with
        | .error e => .error ("error setting up source IP extraction: " ++ e)
        | .ok _ => .ok l
      else .ok l

/-- setupGRPCServer (src/server/server.go:577): binds the gRPC listener and
resolves TLS material; the bound listener is stored. -/
def setupGRPCServer (env : Env) : Except String Listener :=
  match env.grpcListen with
  | .error e => .error e
  | .ok l =>
    match env.grpcTLSConfig with
    | .error e => .error e
    | .ok _ => .ok l

/-- New (src/server/server.go:210): rejects a config with both protocols
disabled, rejects HTTP-to-gRPC routing unless both protocols are enabled,
then parses cipher suites and TLS version and runs the per-protocol setup
for each enabled protocol. -/
def New (cfg : Config) (env : Env) : Except String Server :=
  if !cfg.GRPCEnabled && !cfg.HTTPEnabled then
    .error "both gRPC and HTTP ports are disabled, at least one must be enabled"
  else if cfg.routeHTTPToGRPC && (!cfg.HTTPEnabled || !cfg.GRPCEnabled) then
    .error "both gRPC and HTTP ports must be enabled to route HTTP to gRPC"
  else
    match env.cipherSuites with
    | .error e => .error e
    | .ok _ =>
      match env.minVersion with
      | .error e => .error e
      | .ok _ =>
        match (if cfg.HTTPEnabled then (setupHTTPServer cfg env).map some else .ok none) with
        | .error e => .error e
        | .ok httpL =>
          match (if cfg.GRPCEnabled then (setupGRPCServer env).map some else .ok none) with
          | .error e => .error e
          | .ok grpcL => .ok ⟨httpL, grpcL⟩

/-- HTTPListenAddr (src/server/server.go:431): nil when the HTTP listener is
nil, otherwise the listener's address. -/
def Server.HTTPListenAddr (s : Server) : Option String := s.httpListener.map Listener.addr

/-- GRPCListenAddr (src/server/server.go:439): nil when the gRPC listener is
nil, otherwise the listener's address. -/
def Server.GRPCListenAddr (s : Server) : Option String := s.grpcListener.map Listener.addr

/-- Errors a serving loop can report: the HTTP engine's graceful-stop sentinel
(`http.ErrServerClosed`), the RPC engine's graceful-stop sentinel
(`grpc.ErrServerStopped`), or any other failure. -/
inductive GoServeError where
  | httpErrServerClosed
  | grpcErrServerStopped
  | otherFailure (msg : String)
deriving DecidableEq

/-- A value written to the completion channel: `none` is a nil error. -/
abbrev ServeResult := Option GoServeError

/-- The single-slot completion channel (`make(chan error, 1)`): `none` when the
slot is empty, `some v` when it holds `v`. -/
abbrev ErrChan := Option ServeResult

/-- Non-blocking send (`select { case errChan <- v: default: }`,
src/server/server.go:365): fills an empty slot, discards the value otherwise. -/
def trySend (ch : ErrChan) (v : ServeResult) : ErrChan :=
  match ch with
  | none => some v
  | some w => some w

/-- Normalization applied by handleGRPCError: `grpc.ErrServerStopped`
becomes nil. -/
def grpcNormalized (e : ServeResult) : ServeResult :=
  if e = some .grpcErrServerStopped then none else e

/-- handleGRPCError (src/server/server.go:419): normalizes the graceful-stop
sentinel to nil and sends the result non-blockingly. -/
def handleGRPCError (e : ServeResult) (ch : ErrChan) : ErrChan :=
  trySend ch (grpcNormalized e)

/-- The writers Run starts (src/server/server.go:358): the stop/signal watcher,
the HTTP serving routine, the gRPC serving routine, and — when co-routing is
active — the connection multiplexer and the gRPC-on-HTTP serving routine,
each carrying the error its serving call returned. -/
inductive WriterEvent where
  | signal
  | httpServe (e : ServeResult)
  | grpcServe (e : ServeResult)
  | muxServe (e : ServeResult)
  | grpcOnHTTPServe (e : ServeResult)
deriving DecidableEq

/-- The value each writer reports: the watcher reports nil; the HTTP routine
normalizes `http.ErrServerClosed` to nil (src/server/server.go:379); the three
gRPC-flavored routines report through `handleGRPCError`. -/
def reportedValue : WriterEvent → ServeResult
  | .signal => none
  | .httpServe e => if e = some .httpErrServerClosed then none else e
  | .grpcServe e => grpcNormalized e
  | .muxServe e => grpcNormalized e
  | .grpcOnHTTPServe e => grpcNormalized e

/-- One writer's completion: its (normalized) value is sent non-blockingly. -/
def stepChan (ch : ErrChan) (w : WriterEvent) : ErrChan :=
  match w with
  | .signal => trySend ch none
  | .httpServe e => trySend ch (if e = some .httpErrServerClosed then none else e)
  | .grpcServe e => handleGRPCError e ch
  | .muxServe e => handleGRPCError e ch
  | .grpcOnHTTPServe e => handleGRPCError e ch

/-- State of the completion channel after the writers finish in the given
interleaving order, starting from the empty slot. -/
def runChan (ws : List WriterEvent) : ErrChan :=
  ws.foldl stepChan none

end server

namespace middleware

/-- Cap on captured response-body bytes
(src/middleware/response.go:12, `maxResponseBodyInLogs`). -/
def maxResponseBodyInLogs : Int := 4096

/-- Truncation marker appended when the captured body is cut off
(src/middleware/response.go:74). -/
def truncationMarker : List Nat := strBytes "..."

/-- badResponseLoggingWriter (src/middleware/response.go:17): the recorded
status code, whether the body is being captured, how many body bytes may still
be captured, and the capture buffer. The underlying `http.ResponseWriter` is
modelled through the forwarded calls (see `WriteEffect`). -/
structure BadResponseLoggingWriter where
  statusCode : Int
  logBody : Bool
  bodyBytesLeft : Int
  buffer : List Nat
deriving DecidableEq

/-- newBadResponseLoggingWriter (src/middleware/response.go:26); `statusCode`
is left at Go's zero value. -/
def newBadResponseLoggingWriter : BadResponseLoggingWriter :=
  { statusCode := 0, logBody := false, bodyBytesLeft := maxResponseBodyInLogs, buffer := [] }

/-- captureResponseBody (src/middleware/response.go:71): appends the data to
the capture buffer while budget remains; when the data overruns the budget it
appends the prefix that fits plus the truncation marker and stops capturing. -/
def captureResponseBody (b : BadResponseLoggingWriter) (data : List Nat) : BadResponseLoggingWriter :=
  if (data.length : Int) > b.bodyBytesLeft then
    { b with
      buffer := b.buffer ++ data.take b.bodyBytesLeft.toNat ++ truncationMarker
      bodyBytesLeft := 0
      logBody := false }
  else
    { b with
      buffer := b.buffer ++ data
      bodyBytesLeft := b.bodyBytesLeft - data.length }

/-- Observable effect of one call on the wrapped writer: the bytes or status
code forwarded to the underlying `http.ResponseWriter`, and — for `Write` —
the underlying writer's `(n, err)` result returned to the caller. -/
structure WriteEffect where
  forwarded : List Nat
  result : Nat × Option String
deriving DecidableEq

/-- Write (src/middleware/response.go:41): forwards the data to the underlying
writer, captures it when capturing is on, and returns the underlying writer's
result (`underlying` is the oracle for that result). -/
def BadResponseLoggingWriter.write (b : BadResponseLoggingWriter) (data : List Nat)
    (underlying : Nat × Option String) : BadResponseLoggingWriter × WriteEffect :=
  let b' := if b.logBody then captureResponseBody b data else b
  (b', ⟨data, underlying⟩)

/-- WriteHeader (src/middleware/response.go:50): records the status code, turns
capturing on for 5xx codes, and forwards the code (returned here) to the
underlying writer. -/
def BadResponseLoggingWriter.writeHeader (b : BadResponseLoggingWriter) (statusCode : Int) :
    BadResponseLoggingWriter × Int :=
  ({ b with statusCode := statusCode, logBody := if 500 ≤ statusCode then true else b.logBody },
   statusCode)

/-- A call made by the handler on the wrapped writer. -/
inductive WriterCall where
  | header (statusCode : Int)
  | body (data : List Nat)
deriving DecidableEq

/-- State after one call; the underlying writer's result for a `Write` is
irrelevant to the state, so a fixed full-write result stands in for it. -/
def stepCall (b : BadResponseLoggingWriter) (c : WriterCall) : BadResponseLoggingWriter :=
  match c with
  | .header code => (b.writeHeader code).1
  | .body data => (b.write data (data.length, none)).1

/-- State after a sequence of calls on a fresh wrapped writer. -/
def runCalls (calls : List WriterCall) : BadResponseLoggingWriter :=
  calls.foldl stepCall newBadResponseLoggingWriter

end middleware

/-! Concrete sample values used by the witness and counterexample theorems. -/

/-- A 5xx response used to witness the round-trip law. -/
def roundtripSample : HTTPResponse :=
  { code := 502, headers := [⟨"X-Why", ["bad gateway"]⟩], body := strBytes "bad gateway" }

/-- A plain (non-status) error used to witness the not-a-tunneled-error case. -/
def notTunneledSample : GoError := .simpleErr (strBytes "connection refused")

/-- The wrapped cancellation error of src/httpgrpc/httpgrpc_test.go:13. -/
def canceledSample : GoError := .wrappedErr (strBytes "something failed: context canceled") .canceledErr

/-- Recorder state with status 600: a status that is >= 500 but not 5xx. -/
def recorded600 : httpgrpc.Recorded := { code := 600, headers := [], body := [] }

/-- Recorder state with a 5xx status, used to witness the Handle error path. -/
def recorded503 : httpgrpc.Recorded :=
  { code := 503, headers := [⟨"Retry-After", ["1"]⟩], body := strBytes "unavailable" }

/-- Recorder state with a 2xx status, used to witness the Handle success path. -/
def recorded204 : httpgrpc.Recorded := { code := 204, headers := [], body := [] }

/-- A remote error that carries a recoverable response detail. -/
def recoverableSample : GoError :=
  .statusErr { code := 502, message := strBytes "bad gateway",
               details := [.httpResponse { code := 502, headers := [], body := strBytes "bad gateway" }] }

/-- A remote error with no recoverable response detail. -/
def unrecoverableSample : GoError := .simpleErr (strBytes "rpc timeout")

/-- A config that enables only HTTP yet requests HTTP-to-gRPC co-routing. -/
def cfgRouteHTTPOnly : server.Config :=
  { httpListenPort := 80, grpcListenPort := -1, routeHTTPToGRPC := true, logSourceIPs := false }

/-- A config with both protocols enabled and no co-routing. -/
def cfgBothEnabled : server.Config :=
  { httpListenPort := 80, grpcListenPort := 9095, routeHTTPToGRPC := false, logSourceIPs := false }

/-- A config with both protocols disabled. -/
def cfgBothDisabled : server.Config :=
  { httpListenPort := -1, grpcListenPort := -1, routeHTTPToGRPC := false, logSourceIPs := false }

/-- An environment in which every effectful construction step succeeds. -/
def envAllOkSample : server.Env :=
  { cipherSuites := .ok (), minVersion := .ok (),
    httpListen := .ok ⟨"127.0.0.1:80"⟩, httpTLSConfig := .ok (), sourceIPs := .ok (),
    grpcListen := .ok ⟨"127.0.0.1:9095"⟩, grpcTLSConfig := .ok () }

/-- The response body buffer of the pooling test (capacity 3200). -/
def smallBodySample : httpgrpcserver.PoolHTTPResponse := { body := ⟨[], 3200⟩ }

/-- A response body buffer one byte over the pool ceiling. -/
def largeBodySample : httpgrpcserver.PoolHTTPResponse := { body := ⟨[], 1024 * 1024 + 1⟩ }

/-- A writer interleaving: the gRPC loop stops gracefully first, then the HTTP
loop fails. -/
def runEventsSample : List server.WriterEvent :=
  [.grpcServe (some .grpcErrServerStopped), .httpServe (some (.otherFailure "accept failed"))]

/-- Late writers arriving after the first outcome was reported. -/
def runMoreSample : List server.WriterEvent := [.signal]

/-- Body chunks written before any WriteHeader call. -/
def c10Pre : List (List Nat) := [strBytes "early"]

/-- Body chunks written after the WriteHeader call. -/
def c10Post : List (List Nat) := [strBytes "it broke"]

/-- A call sequence with two WriteHeader calls: capture is enabled by the first
(5xx) and the recorded status is then lowered below 500 by the second. -/
def c10CounterCalls : List middleware.WriterCall :=
  [.header 500, .body (strBytes "boom"), .header 200]

/-! Theorems. -/

/-- C1: for every HTTP response `r` with `500 ≤ r.code < 600`, applying
`ErrorFromHTTPResponse` and then `HTTPResponseFromError` yields `(r, true)`,
with the recovered response equal to `r` exactly on code, headers and body. -/
theorem error_response_roundtrip_5xx (r : HTTPResponse) (h1 : 500 ≤ r.code) (h2 : r.code < 600) :
    ∃ e, types.ErrorFromHTTPResponse r = some e ∧ types.HTTPResponseFromError e = some r := by
  refine ⟨.statusErr ⟨r.code, r.body, [.httpResponse r]⟩, ?_, rfl⟩
  unfold types.ErrorFromHTTPResponse
  rw [if_neg (by omega)]

/-- Witness for C1 at a concrete 502 response. -/
theorem error_response_roundtrip_5xx_witness :
    500 ≤ roundtripSample.code ∧ roundtripSample.code < 600 ∧
    ∃ e, types.ErrorFromHTTPResponse roundtripSample = some e ∧
      types.HTTPResponseFromError e = some roundtripSample :=
  ⟨by decide, by decide, error_response_roundtrip_5xx roundtripSample (by decide) (by decide)⟩

/-- C4: for every error that is not a gRPC status error, or whose status does
not carry exactly one detail, or whose single detail does not unmarshal to an
`HTTPResponse`, `HTTPResponseFromError` returns `(nil, false)`. -/
theorem not_tunneled_recovers_nothing (err : GoError)
    (h : types.statusFromError err = none
      ∨ (∃ s, types.statusFromError err = some s ∧ s.details.length ≠ 1)
      ∨ (∃ s d, types.statusFromError err = some s ∧ s.details = [d] ∧
          ∀ resp, d ≠ .httpResponse resp)) :
    types.HTTPResponseFromError err = none := by
  cases err with
  | statusErr s0 =>
    obtain ⟨c, m, ds⟩ := s0
    rcases h with h | ⟨s, hs, hlen⟩ | ⟨s, d, hs, hd, hresp⟩
    · simp [types.statusFromError] at h
    · have hss : ({ code := c, message := m, details := ds } : GrpcStatus) = s := by
        simpa [types.statusFromError] using hs
      subst hss
      dsimp only at hlen
      cases ds with
      | nil => rfl
      | cons d rest =>
        cases rest with
        | nil => simp at hlen
        | cons d2 rest2 => rfl
    · have hss : ({ code := c, message := m, details := ds } : GrpcStatus) = s := by
        simpa [types.statusFromError] using hs
      subst hss
      dsimp only at hd
      subst hd
      cases d with
      | httpResponse resp => exact absurd rfl (hresp resp)
      | otherDetail tag => rfl
  | canceledErr => rfl
  | wrappedErr msg inner => rfl
  | simpleErr msg => rfl

/-- Witness for C4 at a concrete plain error. -/
theorem not_tunneled_recovers_nothing_witness :
    types.statusFromError notTunneledSample = none ∧
    types.HTTPResponseFromError notTunneledSample = none :=
  ⟨rfl, not_tunneled_recovers_nothing notTunneledSample (.inl rfl)⟩

/-- C3: every error wrapping context cancellation maps through the
`httpgrpc`-package `HTTPResponseFromError` to ok = true, the fixed
client-closed-request status, and a body equal to the error text. -/
theorem canceled_maps_to_client_closed_request (err : GoError) (h : errIsCanceled err = true) :
    httpgrpc.HTTPResponseFromError err =
      some { code := httpgrpc.StatusClientClosedRequest, headers := [], body := errText err } := by
  unfold httpgrpc.HTTPResponseFromError
  rw [if_pos h]

/-- Witness for C3 at the wrapped cancellation error of the repository's test. -/
theorem canceled_maps_to_client_closed_request_witness :
    errIsCanceled canceledSample = true ∧
    httpgrpc.HTTPResponseFromError canceledSample =
      some { code := 499, headers := [],
             body := strBytes "something failed: context canceled" } :=
  ⟨by decide, (canceled_maps_to_client_closed_request canceledSample (by decide)).trans (by decide)⟩

/-- C6: for every failed remote Handle call, the tunnel client writes the
recovered response verbatim when the error carries one, and otherwise responds
with a generic HTTP 500 whose message is the raw error text. -/
theorem client_recovers_response_or_generic_error (err : GoError) :
    (∀ resp, types.HTTPResponseFromError err = some resp →
      httpgrpc.ServeHTTP (.error err) = .explicit resp.headers resp.code resp.body) ∧
    (types.HTTPResponseFromError err = none →
      httpgrpc.ServeHTTP (.error err) = .genericError 500 (errText err)) := by
  constructor
  · intro resp h
    simp only [httpgrpc.ServeHTTP]
    rw [h]
  · intro h
    simp only [httpgrpc.ServeHTTP]
    rw [h]

/-- Witness for C6 at a recoverable and an unrecoverable remote error. -/
theorem client_recovers_response_or_generic_error_witness :
    httpgrpc.ServeHTTP (.error recoverableSample) =
      .explicit [] 502 (strBytes "bad gateway") ∧
    httpgrpc.ServeHTTP (.error unrecoverableSample) =
      .genericError 500 (strBytes "rpc timeout") :=
  ⟨(client_recovers_response_or_generic_error recoverableSample).1
      { code := 502, headers := [], body := strBytes "bad gateway" } (by decide),
   (client_recovers_response_or_generic_error unrecoverableSample).2 (by decide)⟩

/-- C7: evaluation of ParseURL at the claim's address forms. The bare legacy
form `host.namespace:port` does NOT resolve through the cluster-aware
resolver: `url.Parse` reads the host as a URL scheme, so ParseURL rejects it
as an unrecognised scheme, contradicting the claim and the function's own doc
comment; `direct://` passes the host through with no options, and
`kubernetes://` resolves with the namespace defaulting to `default`. -/
theorem parse_url_schemes :
    httpgrpc.ParseURL "frontend.default:80" =
      .error "unrecognised scheme: frontend.default" ∧
    httpgrpc.ParseURL "10.0.0.1:80" =
      .error "first path segment in URL cannot contain colon" ∧
    httpgrpc.ParseURL "direct://frontend:80" = .ok ("frontend:80", []) ∧
    httpgrpc.ParseURL "kubernetes://frontend.kube-system:80" =
      .ok ("kubernetes://frontend:80", [.kuberesolverBalancer "kube-system".data]) ∧
    httpgrpc.ParseURL "kubernetes://frontend:80" =
      .ok ("kubernetes://frontend:80", [.kuberesolverBalancer "default".data]) ∧
    httpgrpc.ParseURL "http://frontend:80" = .error "unrecognised scheme: http" :=
  ⟨rfl, rfl, rfl, rfl, rfl, rfl⟩

/-- The `int32` conversion is the identity on the recorder's status range. -/
theorem toInt32_small (n : Nat) (h : n ≤ 999) : httpgrpc.toInt32 n = n := by
  unfold httpgrpc.toInt32
  have hlt : n + 2147483648 < 4294967296 := by omega
  rw [Nat.mod_eq_of_lt hlt]
  push_cast
  omega

/-- C2 counterexample: a recorded status of 600 is at least 500, yet Handle
returns the encoded response with a nil error (the source tests
`recorder.Code/100 == 5`, not `>= 500`). -/
theorem handle_600_not_status_error :
    500 ≤ recorded600.code ∧
    (httpgrpc.Handle recorded600).2 = none ∧
    (httpgrpc.Handle recorded600).1 = some { code := 600, headers := [], body := [] } := by
  refine ⟨by decide, ?_, ?_⟩ <;> rfl

/-- C2 (amended): for every request whose handler finished with a recorder
status in the valid range 100..999, Handle returns a nil response together
with a status error carrying the full encoded response as its single
structured detail exactly when the status is in the 5xx range 500..599;
for any other status (below 500 or at 600 and above) it returns the encoded
response with a nil error. -/
theorem handle_5xx_promoted_to_status_error (rec : httpgrpc.Recorded)
    (hlo : 100 ≤ rec.code) (hhi : rec.code ≤ 999) :
    (500 ≤ rec.code ∧ rec.code ≤ 599 →
      (httpgrpc.Handle rec).1 = none ∧
      ∃ s, (httpgrpc.Handle rec).2 = some (.statusErr s) ∧
        s.details = [.httpResponse { code := (rec.code : Int), headers := rec.headers, body := rec.body }]) ∧
    (rec.code < 500 ∨ 600 ≤ rec.code →
      (httpgrpc.Handle rec).1 = some { code := (rec.code : Int), headers := rec.headers, body := rec.body } ∧
      (httpgrpc.Handle rec).2 = none) := by
  have ht : httpgrpc.toInt32 rec.code = rec.code := toInt32_small rec.code (by omega)
  constructor
  · rintro ⟨h5, h6⟩
    have hdiv : rec.code / 100 = 5 := by omega
    unfold httpgrpc.Handle
    rw [if_pos hdiv]
    refine ⟨rfl, ?_⟩
    unfold types.ErrorFromHTTPResponse
    rw [ht, if_neg (by dsimp only; omega)]
    exact ⟨_, rfl, rfl⟩
  · intro hout
    have hdiv : rec.code / 100 ≠ 5 := by omega
    unfold httpgrpc.Handle
    rw [if_neg hdiv, ht]
    exact ⟨rfl, rfl⟩

/-- Witness for C2 at a 503 recorder state (error path) and a 204 recorder
state (success path). -/
theorem handle_5xx_promoted_witness :
    ((httpgrpc.Handle recorded503).1 = none ∧
      ∃ s, (httpgrpc.Handle recorded503).2 = some (.statusErr s) ∧
        s.details = [.httpResponse { code := (recorded503.code : Int),
                                     headers := recorded503.headers,
                                     body := recorded503.body }]) ∧
    ((httpgrpc.Handle recorded204).1 = some { code := (recorded204.code : Int),
                                              headers := recorded204.headers,
                                              body := recorded204.body } ∧
      (httpgrpc.Handle recorded204).2 = none) :=
  ⟨(handle_5xx_promoted_to_status_error recorded503 (by decide) (by decide)).1 (by decide),
   (handle_5xx_promoted_to_status_error recorded204 (by decide) (by decide)).2 (.inl (by decide))⟩

/-- C5 counterexample: a configuration with the HTTP protocol enabled (and
gRPC disabled) on which New fails — it requests HTTP-to-gRPC routing, which
New rejects unless both protocols are enabled — even though every effectful
construction step succeeds. -/
theorem new_fails_with_route_and_one_protocol :
    cfgRouteHTTPOnly.HTTPEnabled = true ∧
    server.New cfgRouteHTTPOnly envAllOkSample =
      .error "both gRPC and HTTP ports must be enabled to route HTTP to gRPC" :=
  ⟨rfl, rfl⟩

/-- C5 (amended): with both protocols disabled New fails with the specific
error; with at least one protocol enabled — provided HTTP-to-gRPC routing is
not requested with a disabled protocol and the effectful steps (cipher/TLS
resolution, binds, source-IP setup) succeed — New succeeds and each enabled
protocol's listen address is non-nil. -/
theorem new_construction_spec (cfg : server.Config) (env : server.Env) :
    ((cfg.HTTPEnabled = false ∧ cfg.GRPCEnabled = false) →
      server.New cfg env = .error "both gRPC and HTTP ports are disabled, at least one must be enabled") ∧
    ((cfg.HTTPEnabled = true ∨ cfg.GRPCEnabled = true) →
      (cfg.routeHTTPToGRPC = true → cfg.HTTPEnabled = true ∧ cfg.GRPCEnabled = true) →
      env.allOk →
      ∃ s, server.New cfg env = .ok s ∧
        (cfg.HTTPEnabled = true → s.HTTPListenAddr.isSome = true) ∧
        (cfg.GRPCEnabled = true → s.GRPCListenAddr.isSome = true)) := by
  constructor
  · rintro ⟨hH, hG⟩
    unfold server.New
    rw [hH, hG]
    rfl
  · rintro henabled hroute ⟨⟨u1, e1⟩, ⟨u2, e2⟩, ⟨l3, e3⟩, ⟨u4, e4⟩, ⟨u5, e5⟩, ⟨l6, e6⟩, ⟨u7, e7⟩⟩
    have hsetupH : server.setupHTTPServer cfg env = .ok l3 := by
      cases hls : cfg.logSourceIPs <;> simp [server.setupHTTPServer, e3, e4, e5, hls]
    have hsetupG : server.setupGRPCServer env = .ok l6 := by
      simp [server.setupGRPCServer, e6, e7]
    cases hH : cfg.HTTPEnabled with
    | false =>
      cases hG : cfg.GRPCEnabled with
      | false => rw [hH, hG] at henabled; rcases henabled with h | h <;> exact absurd h (by simp)
      | true =>
        have hr : cfg.routeHTTPToGRPC = false := by
          cases hr0 : cfg.routeHTTPToGRPC with
          | false => rfl
          | true =>
            have hcontra := (hroute hr0).1
            rw [hH] at hcontra
            exact Bool.noConfusion hcontra
        refine ⟨⟨none, some l6⟩, ?_, ?_, ?_⟩
        · simp [server.New, hH, hG, hr, e1, e2, hsetupG, Except.map]
        · intro h; exact absurd h (by simp [hH])
        · intro _; rfl
    | true =>
      cases hG : cfg.GRPCEnabled with
      | false =>
        have hr : cfg.routeHTTPToGRPC = false := by
          cases hr0 : cfg.routeHTTPToGRPC with
          | false => rfl
          | true =>
            have hcontra := (hroute hr0).2
            rw [hG] at hcontra
            exact Bool.noConfusion hcontra
        refine ⟨⟨some l3, none⟩, ?_, ?_, ?_⟩
        · simp [server.New, hH, hG, hr, e1, e2, hsetupH, Except.map]
        · intro _; rfl
        · intro h; exact absurd h (by simp [hG])
      | true =>
        refine ⟨⟨some l3, some l6⟩, ?_, ?_, ?_⟩
        · simp [server.New, hH, hG, e1, e2, hsetupH, hsetupG, Except.map]
        · intro _; rfl
        · intro _; rfl

/-- Witness for C5: both protocols disabled fails with the specific error;
both enabled (no co-routing) succeeds with both listen addresses non-nil. -/
theorem new_construction_spec_witness :
    server.New cfgBothDisabled envAllOkSample =
      .error "both gRPC and HTTP ports are disabled, at least one must be enabled" ∧
    ∃ s, server.New cfgBothEnabled envAllOkSample = .ok s ∧
      (cfgBothEnabled.HTTPEnabled = true → s.HTTPListenAddr.isSome = true) ∧
      (cfgBothEnabled.GRPCEnabled = true → s.GRPCListenAddr.isSome = true) := by
  constructor
  · exact (new_construction_spec cfgBothDisabled envAllOkSample).1 ⟨by decide, by decide⟩
  · refine (new_construction_spec cfgBothEnabled envAllOkSample).2 (.inl (by decide))
      (fun h => absurd h (by decide)) ?_
    exact ⟨⟨(), rfl⟩, ⟨(), rfl⟩, ⟨_, rfl⟩, ⟨(), rfl⟩, ⟨(), rfl⟩, ⟨_, rfl⟩, ⟨(), rfl⟩⟩

/-- C8: for every outgoing-payload event carrying a tunneled HTTP response,
the stats interceptor hands the body buffer — truncated to length zero with
capacity preserved — to the pool and clears the response's body reference
exactly when the capacity is at or below the pool ceiling; a larger buffer is
never handed to the pool; and every event is passed through unchanged to the
wrapped statistics handler. -/
theorem stats_handler_pools_body_buffers (resp : httpgrpcserver.PoolHTTPResponse) :
    (resp.body.cap ≤ httpgrpcserver.maxInPoolBufferCapacity →
      (httpgrpcserver.HandleRPC true (.outPayload (.httpResponse resp))).putArg =
        some ⟨[], resp.body.cap⟩ ∧
      (httpgrpcserver.HandleRPC true (.outPayload (.httpResponse resp))).finalStats =
        .outPayload (.httpResponse ⟨httpgrpcserver.GoSlice.nilSlice⟩)) ∧
    (httpgrpcserver.maxInPoolBufferCapacity < resp.body.cap →
      (httpgrpcserver.HandleRPC true (.outPayload (.httpResponse resp))).putArg = none) ∧
    (∀ st : httpgrpcserver.RPCStats,
      (httpgrpcserver.HandleRPC true st).nextArg = some st) := by
  refine ⟨?_, ?_, ?_⟩
  · intro h
    have hn : ¬ resp.body.cap > httpgrpcserver.maxInPoolBufferCapacity := by omega
    simp [httpgrpcserver.HandleRPC, hn, httpgrpcserver.GoSlice.truncate]
  · intro h
    simp [httpgrpcserver.HandleRPC, h]
  · intro st
    cases st with
    | otherStats => rfl
    | outPayload p =>
      cases p with
      | otherPayload => rfl
      | httpResponse r =>
        by_cases h : r.body.cap > httpgrpcserver.maxInPoolBufferCapacity <;>
          simp [httpgrpcserver.HandleRPC, h]

/-- Witness for C8 at the buffers of the repository's stats-handler tests:
capacity 3200 is pooled with capacity preserved; a buffer one byte over the
ceiling is not pooled. -/
theorem stats_handler_pools_body_buffers_witness :
    (httpgrpcserver.HandleRPC true (.outPayload (.httpResponse smallBodySample))).putArg =
      some ⟨[], 3200⟩ ∧
    (httpgrpcserver.HandleRPC true (.outPayload (.httpResponse largeBodySample))).putArg =
      none :=
  ⟨((stats_handler_pools_body_buffers smallBodySample).1 (by decide)).1,
   (stats_handler_pools_body_buffers largeBodySample).2.1 (by decide)⟩

/-- A filled completion-channel slot keeps its value: every later writer's
non-blocking send is discarded. -/
theorem foldl_stepChan_filled (l : List server.WriterEvent) (v : server.ServeResult) :
    List.foldl server.stepChan (some v) l = some v := by
  induction l with
  | nil => rfl
  | cons w ws ih =>
    have hstep : server.stepChan (some v) w = some v := by
      cases w <;> rfl
    rw [List.foldl_cons, hstep, ih]

/-- An empty slot takes the writer's reported (normalized) value. -/
theorem stepChan_empty (w : server.WriterEvent) :
    server.stepChan none w = some (server.reportedValue w) := by
  cases w <;> rfl

/-- C9: for every non-empty interleaving of completion-channel writers, the
channel ends up holding the first writer's value — later outcomes are
discarded by the non-blocking sends, so Run reads exactly one outcome — and
the HTTP and RPC engines' graceful-stop sentinels are normalized to a nil
result before reporting. -/
theorem run_reports_first_outcome (ws more : List server.WriterEvent) (h : ws ≠ []) :
    server.runChan ws = some (server.reportedValue (ws.head h)) ∧
    server.runChan (ws ++ more) = server.runChan ws ∧
    server.reportedValue (.httpServe (some .httpErrServerClosed)) = none ∧
    server.reportedValue (.grpcServe (some .grpcErrServerStopped)) = none := by
  obtain ⟨w, rest, rfl⟩ := List.exists_cons_of_ne_nil h
  have hfirst : server.runChan (w :: rest) = some (server.reportedValue w) := by
    unfold server.runChan
    rw [List.foldl_cons, stepChan_empty, foldl_stepChan_filled]
  refine ⟨hfirst, ?_, by decide, by decide⟩
  show server.runChan ((w :: rest) ++ more) = server.runChan (w :: rest)
  unfold server.runChan
  rw [List.foldl_append]
  have : List.foldl server.stepChan none (w :: rest) = some (server.reportedValue w) := hfirst
  rw [this, foldl_stepChan_filled]

/-- Witness for C9: the gRPC graceful-stop sentinel arrives first and is
reported as nil; a late HTTP failure and a late watcher write change nothing. -/
theorem run_reports_first_outcome_witness :
    server.runChan runEventsSample = some none ∧
    server.runChan (runEventsSample ++ runMoreSample) = server.runChan runEventsSample := by
  have h := run_reports_first_outcome runEventsSample runMoreSample (by decide)
  exact ⟨h.1.trans (by decide), h.2.1⟩

/-- Unfolding lemma: a Write call captures only when capturing is on. -/
theorem stepCall_body_eq (b : middleware.BadResponseLoggingWriter) (d : List Nat) :
    middleware.stepCall b (.body d) =
      if b.logBody then middleware.captureResponseBody b d else b := rfl

/-- Write calls with capturing off leave the writer state unchanged. -/
theorem runBody_no_capture (ds : List (List Nat)) (b : middleware.BadResponseLoggingWriter)
    (h : b.logBody = false) :
    List.foldl middleware.stepCall b (ds.map .body) = b := by
  induction ds with
  | nil => rfl
  | cons d rest ih =>
    rw [List.map_cons, List.foldl_cons, stepCall_body_eq, h]
    exact ih

/-- Write calls never change the recorded status code. -/
theorem runBody_statusCode (ds : List (List Nat)) (b : middleware.BadResponseLoggingWriter) :
    (List.foldl middleware.stepCall b (ds.map .body)).statusCode = b.statusCode := by
  induction ds generalizing b with
  | nil => rfl
  | cons d rest ih =>
    rw [List.map_cons, List.foldl_cons, stepCall_body_eq]
    by_cases hl : b.logBody
    · rw [if_pos hl, ih]
      unfold middleware.captureResponseBody
      split <;> rfl
    · rw [if_neg hl]
      exact ih b

/-- Capture invariant, preserved by every Write call: while capturing is on the
remaining budget is non-negative and captured bytes plus budget stay within
4096; the captured buffer never exceeds 4099 bytes. -/
theorem capture_inv (ds : List (List Nat)) (b : middleware.BadResponseLoggingWriter)
    (h1 : b.logBody = true →
      0 ≤ b.bodyBytesLeft ∧ (b.buffer.length : Int) + b.bodyBytesLeft ≤ 4096)
    (h2 : (b.buffer.length : Int) ≤ 4099) :
    ((List.foldl middleware.stepCall b (ds.map .body)).logBody = true →
      0 ≤ (List.foldl middleware.stepCall b (ds.map .body)).bodyBytesLeft ∧
      ((List.foldl middleware.stepCall b (ds.map .body)).buffer.length : Int) +
        (List.foldl middleware.stepCall b (ds.map .body)).bodyBytesLeft ≤ 4096) ∧
    ((List.foldl middleware.stepCall b (ds.map .body)).buffer.length : Int) ≤ 4099 := by
  induction ds generalizing b with
  | nil => exact ⟨h1, h2⟩
  | cons d rest ih =>
    rw [List.map_cons, List.foldl_cons, stepCall_body_eq]
    by_cases hl : b.logBody
    · rw [if_pos hl]
      obtain ⟨hleft, hsum⟩ := h1 hl
      unfold middleware.captureResponseBody
      by_cases hlen : (d.length : Int) > b.bodyBytesLeft
      · rw [if_pos hlen]
        apply ih
        · intro hb
          exact absurd hb (by simp)
        · dsimp only
          have htake : (d.take b.bodyBytesLeft.toNat).length = b.bodyBytesLeft.toNat := by
            rw [List.length_take]
            omega
          have hmarker : middleware.truncationMarker.length = 3 := rfl
          simp only [List.length_append, htake, hmarker]
          push_cast
          omega
      · rw [if_neg hlen]
        apply ih
        · intro _
          dsimp only
          constructor
          · omega
          · simp only [List.length_append]
            push_cast
            omega
        · dsimp only
          simp only [List.length_append]
          push_cast
          omega
    · rw [if_neg hl]
      exact ih b h1 h2

/-- C10 counterexample: after the call sequence WriteHeader(500), Write("boom"),
WriteHeader(200), the wrapped writer holds a captured body although its
recorded status code is 200: body capture is keyed on having seen a 5xx
WriteHeader, not on the currently recorded status. -/
theorem bad_response_writer_double_header_counterexample :
    (middleware.runCalls c10CounterCalls).buffer = strBytes "boom" ∧
    (middleware.runCalls c10CounterCalls).statusCode = 200 := by
  constructor <;> rfl

/-- C10 (amended): for every sequence of Write and WriteHeader calls in which
WriteHeader is called at most once, all written data and the status code are
forwarded unchanged to the underlying response writer with the underlying
writer's result returned to the caller; the body is captured only when the
recorded status code is at least 500; and the captured copy never exceeds 4096
body bytes plus the truncation marker. -/
theorem bad_response_writer_spec (pre post : List (List Nat)) (code : Int) :
    (∀ (b : middleware.BadResponseLoggingWriter) (data : List Nat) (u : Nat × Option String),
      (b.write data u).2 = ⟨data, u⟩) ∧
    (∀ (b : middleware.BadResponseLoggingWriter) (c : Int), (b.writeHeader c).2 = c) ∧
    (middleware.runCalls (pre.map .body)).buffer = [] ∧
    (middleware.runCalls
        (pre.map .body ++ .header code :: post.map .body)).statusCode = code ∧
    (code < 500 →
      (middleware.runCalls (pre.map .body ++ .header code :: post.map .body)).buffer = []) ∧
    ((middleware.runCalls
        (pre.map .body ++ .header code :: post.map .body)).buffer.length : Int) ≤
      middleware.maxResponseBodyInLogs + (middleware.truncationMarker.length : Int) := by
  have hpre : List.foldl middleware.stepCall middleware.newBadResponseLoggingWriter
      (pre.map .body) = middleware.newBadResponseLoggingWriter :=
    runBody_no_capture pre middleware.newBadResponseLoggingWriter rfl
  have hsplit : middleware.runCalls (pre.map .body ++ .header code :: post.map .body) =
      List.foldl middleware.stepCall
        (middleware.stepCall middleware.newBadResponseLoggingWriter (.header code))
        (post.map .body) := by
    unfold middleware.runCalls
    rw [List.foldl_append, hpre, List.foldl_cons]
  have hheader : middleware.stepCall middleware.newBadResponseLoggingWriter (.header code) =
      { statusCode := code, logBody := if 500 ≤ code then true else false,
        bodyBytesLeft := middleware.maxResponseBodyInLogs, buffer := [] } := by
    unfold middleware.stepCall middleware.BadResponseLoggingWriter.writeHeader
      middleware.newBadResponseLoggingWriter
    rfl
  refine ⟨fun b data u => rfl, fun b c => rfl, ?_, ?_, ?_, ?_⟩
  · show (List.foldl middleware.stepCall middleware.newBadResponseLoggingWriter
      (pre.map .body)).buffer = []
    rw [hpre]
    rfl
  · rw [hsplit, runBody_statusCode, hheader]
  · intro hcode
    rw [hsplit, hheader]
    have : (if 500 ≤ code then true else false) = false := by
      rw [if_neg (by omega)]
    rw [this]
    rw [runBody_no_capture post _ rfl]
  · rw [hsplit, hheader]
    by_cases hc : 500 ≤ code
    · rw [if_pos hc]
      have hinv := capture_inv post
        { statusCode := code, logBody := true,
          bodyBytesLeft := middleware.maxResponseBodyInLogs, buffer := [] }
        (fun _ => by constructor <;> simp [middleware.maxResponseBodyInLogs])
        (by simp)
      have hb := hinv.2
      have : middleware.maxResponseBodyInLogs + (middleware.truncationMarker.length : Int) =
          4099 := rfl
      omega
    · rw [if_neg hc]
      rw [runBody_no_capture post _ rfl]
      have : middleware.maxResponseBodyInLogs + (middleware.truncationMarker.length : Int) =
          4099 := rfl
      simp [this]

/-- Witness for C10 at concrete call sequences: a single 503 WriteHeader with
writes around it records status 503 within the capture bound; the same
sequence with a 200 WriteHeader captures nothing. -/
theorem bad_response_writer_spec_witness :
    (middleware.runCalls
        (c10Pre.map .body ++ .header 503 :: c10Post.map .body)).statusCode = 503 ∧
    ((middleware.runCalls
        (c10Pre.map .body ++ .header 503 :: c10Post.map .body)).buffer.length : Int) ≤
      middleware.maxResponseBodyInLogs + (middleware.truncationMarker.length : Int) ∧
    (middleware.runCalls (c10Pre.map .body ++ .header 200 :: c10Post.map .body)).buffer = [] := by
  have h1 := bad_response_writer_spec c10Pre c10Post 503
  have h2 := bad_response_writer_spec c10Pre c10Post 200
  exact ⟨h1.2.2.2.1, h1.2.2.2.2.2, h2.2.2.2.2.1 (by decide)⟩
